import Mathlib

/-!
A shallow embedding of the anko rule engine (package `anko`, files
`anko.go` and `utils.go`, with the `extras` package as collaborator).

Go values of type `map[string]any` are modelled as association lists
`List (String × Value)`; Go map assignment, deletion and lookup are
`mapSet`, `mapDel` and `List.lookup`.  The opaque Tengo script engine is
modelled at its interface boundary: a compile oracle
`String → Except String Compiled`, where a `Compiled` program carries its
run outcome and the globals observable after a run
(`Compiled.get : String → Option Value`, absent when the program never
set the variable).
-/

/-- Dynamic values flowing between the engine and a rule
(Go `any` / Tengo objects converted back to Go values). -/
inductive Value where
  | str (s : String)
  | int (n : Int)
  | bool (b : Bool)
  | seq (l : List Value)
  | record (m : List (String × Value))

/-- Go map assignment `m[k] = v`: overwrite the binding if the key is
present, else append a fresh binding. -/
def mapSet {α : Type} : List (String × α) → String → α → List (String × α)
  | [], k, v => [(k, v)]
  | (k', v') :: rest, k, v =>
    if k' == k then (k, v) :: rest else (k', v') :: mapSet rest k v

/-- Go `delete(m, k)`: remove any binding for `k`. -/
def mapDel {α : Type} (m : List (String × α)) (k : String) : List (String × α) :=
  m.filter (fun p => p.1 != k)

theorem beqFalseSymm {a b : String} (h : (a == b) = false) : (b == a) = false :=
  beq_eq_false_iff_ne.mpr fun hh => (beq_eq_false_iff_ne.mp h) hh.symm

theorem lookup_mapSet_self {α : Type} (m : List (String × α)) (k : String) (v : α) :
    List.lookup k (mapSet m k v) = some v := by
  induction m with
  | nil => simp [mapSet, List.lookup]
  | cons p rest ih =>
    obtain ⟨a, b⟩ := p
    by_cases h : a = k
    · subst h; simp [mapSet, List.lookup]
    · have h1 : (a == k) = false := beq_eq_false_iff_ne.mpr h
      have h2 : (k == a) = false := beqFalseSymm h1
      simp [mapSet, List.lookup, h1, h2, ih]

theorem lookup_mapSet_ne {α : Type} (m : List (String × α)) (k k' : String) (v : α)
    (h : k' ≠ k) : List.lookup k' (mapSet m k v) = List.lookup k' m := by
  induction m with
  | nil => simp [mapSet, List.lookup, beq_eq_false_iff_ne.mpr h]
  | cons p rest ih =>
    obtain ⟨a, b⟩ := p
    by_cases ha : a = k
    · subst ha; simp [mapSet, List.lookup, beq_eq_false_iff_ne.mpr h]
    · have h1 : (a == k) = false := beq_eq_false_iff_ne.mpr ha
      cases hk : k' == a <;> simp [mapSet, List.lookup, h1, hk, ih]

theorem lookup_mapDel_self {α : Type} (m : List (String × α)) (k : String) :
    List.lookup k (mapDel m k) = none := by
  induction m with
  | nil => simp [mapDel, List.lookup]
  | cons p rest ih =>
    obtain ⟨a, b⟩ := p
    by_cases ha : a = k
    · subst ha; simpa [mapDel, List.filter_cons] using ih
    · have h1 : (a == k) = false := beq_eq_false_iff_ne.mpr ha
      have h2 : (k == a) = false := beqFalseSymm h1
      simp only [mapDel, List.filter_cons, bne] at ih ⊢
      simp [h1, List.lookup, h2, ih]

theorem lookup_mapDel_ne {α : Type} (m : List (String × α)) (k k' : String)
    (h : k' ≠ k) : List.lookup k' (mapDel m k) = List.lookup k' m := by
  induction m with
  | nil => simp [mapDel, List.lookup]
  | cons p rest ih =>
    obtain ⟨a, b⟩ := p
    by_cases ha : a = k
    · subst ha
      simp only [mapDel, List.filter_cons, bne] at ih ⊢
      simp [List.lookup, beq_eq_false_iff_ne.mpr h, ih]
    · have h1 : (a == k) = false := beq_eq_false_iff_ne.mpr ha
      simp only [mapDel, List.filter_cons, bne] at ih ⊢
      cases hk : k' == a <;> simp [h1, List.lookup, hk, ih]

/-- Comma separator used by Go `fmt` when printing composite values. -/
def commaSep : List String → String
  | [] => ""
  | [s] => s
  | s :: rest => s ++ ", " ++ commaSep rest

mutual

/-- Rendering of a value in the style of Go `fmt`'s `%#v` verb.  `fmt`
prints map entries in sorted key order (package `fmt/fmtsort`, Go ≥ 1.12;
this module is built with Go 1.24); a `Value.record` here carries a fixed
pair order, which is the order its entries are rendered in — for the
top-level environment map, where Go map insertion-order nondeterminism
lives, `serializeEnv` below sorts the keys exactly as `fmt` does. -/
def goRender : Value → String
  | .str s => "\"" ++ s ++ "\""
  | .int n => toString n
  | .bool b => if b then "true" else "false"
  | .seq l => "[]interface \x7b\x7d\x7b" ++ commaSep (goRenderList l) ++ "\x7d"
  | .record m => "map[string]interface \x7b\x7d\x7b" ++ commaSep (goRenderPairs m) ++ "\x7d"

/-- Renders each element of a list of values. -/
def goRenderList : List Value → List String
  | [] => []
  | v :: rest => goRender v :: goRenderList rest

/-- Renders each entry of a record as `"key":value`. -/
def goRenderPairs : List (String × Value) → List String
  | [] => []
  | (k, v) :: rest => ("\"" ++ k ++ "\":" ++ goRender v) :: goRenderPairs rest

end

/-- Embeds `serializeEnv` (utils.go:134): `fmt.Sprintf("%#v", envVars)`.
Go `fmt` iterates the map's entries in sorted key order, printing each as
`"key":value` inside `map[string]interface \x7b\x7d\x7b...\x7d`. -/
def serializeEnv (envVars : List (String × Value)) : String :=
  "map[string]interface \x7b\x7d\x7b" ++
    commaSep ((List.insertionSort (· ≤ ·) (envVars.map Prod.fst)).map (fun k =>
      "\"" ++ k ++ "\":" ++
        (match List.lookup k envVars with
         | some v => goRender v
         | none => ""))) ++ "\x7d"

theorem lookup_eq_of_perm {α : Type} {l1 l2 : List (String × α)}
    (hp : l1.Perm l2) (hn : (l1.map Prod.fst).Nodup) (k : String) :
    List.lookup k l1 = List.lookup k l2 := by
  induction hp with
  | nil => rfl
  | cons x _ ih =>
    obtain ⟨a, b⟩ := x
    simp only [List.map_cons, List.nodup_cons] at hn
    cases h : k == a <;> simp [List.lookup, h]
    exact ih hn.2
  | swap x y l =>
    obtain ⟨a, b⟩ := x
    obtain ⟨c, d⟩ := y
    have hca : c ≠ a := by
      simp only [List.map_cons, List.nodup_cons, List.mem_cons, not_or] at hn
      exact hn.1.1
    cases h1 : k == c <;> cases h2 : k == a <;>
      simp only [List.lookup, h1, h2]
    exact absurd ((eq_of_beq h1).symm.trans (eq_of_beq h2)) hca
  | trans h12 _ ih1 ih2 =>
    have hn2 := (h12.map Prod.fst).nodup_iff.mp hn
    exact (ih1 hn).trans (ih2 hn2)

/-- C4: the input fingerprint `serializeEnv` is stable under key insertion
order — two environment maps holding the same key/value pairs in different
orders serialize to the same string, so the two invocations agree on cache
identity. -/
theorem serializeEnv_stable_under_insertion_order (l1 l2 : List (String × Value))
    (hp : l1.Perm l2) (hn : (l1.map Prod.fst).Nodup) :
    serializeEnv l1 = serializeEnv l2 := by
  haveI : IsAntisymm String (· ≤ ·) := ⟨fun a b h1 h2 => le_antisymm h1 h2⟩
  have hfun := lookup_eq_of_perm hp hn
  have hkeys : List.insertionSort (· ≤ ·) (l1.map Prod.fst) =
      List.insertionSort (· ≤ ·) (l2.map Prod.fst) :=
    List.eq_of_perm_of_sorted
      ((List.perm_insertionSort _ _).trans
        ((hp.map Prod.fst).trans (List.perm_insertionSort _ _).symm))
      (List.sorted_insertionSort _ _) (List.sorted_insertionSort _ _)
  simp only [serializeEnv, hkeys, hfun]

/-- Witness for C4 at a concrete pair of reordered environments. -/
theorem serializeEnv_stable_witness :
    serializeEnv [("b", Value.int 2), ("a", Value.str "x")] =
      serializeEnv [("a", Value.str "x"), ("b", Value.int 2)] :=
  serializeEnv_stable_under_insertion_order _ _ (List.Perm.swap _ _ _) (by decide)

/-- Embeds `Rule` (anko.go:69): declared imports and the script body. -/
structure Rule where
  Imports : List String
  Code : String

/-- The opaque Tengo compiled program at its interface boundary
(spec collaborator contract): the outcome of `CompiledProgram.run()` and
`CompiledProgram.getVariable(name)`, absent when the program never set the
variable. -/
structure Compiled where
  runOk : Bool
  get : String → Option Value

/-- Embeds the `Engine` struct (anko.go:17). -/
structure Engine where
  Rules : List (String × Rule)
  Functions : List (String × String)
  Env : List (String × Value)
  denyLibs : List String
  CacheEnabled : Bool
  compiledCache : List (String × Compiled)
  lastInputs : List (String × String)

/-- One logger call made by `buildPreamble` while skipping an import
declaration (utils.go:31, 38, 45). -/
inductive Warning where
  | fnNotFound (key : String)
  | importDenied (imp : String)
  | unrecognized (imp : String)
deriving DecidableEq

/-- Names returned by `stdlib.AllModuleNames()` of tengo v2.17 (external
collaborator constant; utils.go:23 builds the allow set from it). -/
def stdlibModuleNames : List String :=
  ["math", "os", "text", "times", "rand", "fmt", "json", "base64", "hex", "enum"]

/-- Names returned by `extras.AllExtraModuleNames()`: the keys of
`extras.ExtraModules` (extras/extra.go:31). -/
def extraModuleNames : List String := ["log", "req", "html", "anko"]

/-- Embeds the loop body of `buildPreamble` (utils.go:26-48), processing the
declarations in order.  The preamble text of the current declaration is
written before the text produced for the remaining declarations, matching
the `strings.Builder` accumulation; warnings model the logger calls. -/
def buildImports (functions : List (String × String)) (denyList : List String) :
    List String → String × List String × List Warning
  | [] => ("", [], [])
  | imp :: rest =>
    let r := buildImports functions denyList rest
    if "fn:".data.isPrefixOf imp.data then
      let key := String.mk (imp.data.drop 3)
      match List.lookup key functions with
      | none => (r.1, r.2.1, Warning.fnNotFound key :: r.2.2)
      | some fnLiteral =>
        ("\n" ++ ("fn_" ++ key.replace "." "_") ++ " := " ++ fnLiteral ++ r.1,
         r.2.1, r.2.2)
    else if denyList.contains imp then
      (r.1, r.2.1, Warning.importDenied imp :: r.2.2)
    else if stdlibModuleNames.contains imp || extraModuleNames.contains imp then
      (imp ++ " := import(\"" ++ imp ++ "\")\n" ++ r.1, imp :: r.2.1, r.2.2)
    else
      (r.1, r.2.1, Warning.unrecognized imp :: r.2.2)

/-- Embeds `buildPreamble` (utils.go:19): returns the preamble text, the
allowed module names in declaration order, and the warnings emitted. -/
def buildPreamble (rule : Rule) (functions : List (String × String))
    (denyList : List String) : String × List String × List Warning :=
  buildImports functions denyList rule.Imports

/-- The final program text compiled by `RunRule` (anko.go:119):
preamble, a newline, then the rule body. -/
def finalCodeOf (rule : Rule) (functions : List (String × String))
    (denyList : List String) : String :=
  (buildPreamble rule functions denyList).1 ++ "\n" ++ rule.Code

/-- Errors surfaced by the engine layer (anko.go; the formatted Go error
strings are modelled as tagged constructors carrying the same data). -/
inductive RunError where
  | ruleNotFound (rule : String)
  | compileFailed (rule : String) (msg : String)
  | runFailed (rule : String)
  | missingResult (rule : String)
  | itemNotMap (fn : String) (idx : Nat)
  | itemMissingKey (fn : String) (idx : Nat) (key : String)
  | infoMissingKey (key : String)
  | infoGenresNotArray
  | contentMissingKey (key : String)
deriving DecidableEq

/-- Embeds `Engine.RunRule` (anko.go:104-143), with the opaque script
engine supplied as a compile oracle from final program text to a compiled
program.  Returns the result, the updated engine, and the number of
compile events (calls into `script.Compile`).  On the cache-hit path the
source calls `compiledCache.Run()` and discards its error
(anko.go:108), so the cached program is returned as a success
unconditionally. -/
def RunRule (compile : String → Except String Compiled) (e : Engine)
    (ruleName : String) : Except RunError Compiled × Engine × Nat :=
  match (if e.CacheEnabled then List.lookup ruleName e.compiledCache else none) with
  | some cached => (Except.ok cached, e, 0)
  | none =>
    match List.lookup ruleName e.Rules with
    | none => (Except.error (RunError.ruleNotFound ruleName), e, 0)
    | some rule =>
      match compile (finalCodeOf rule e.Functions e.denyLibs) with
      | Except.error msg => (Except.error (RunError.compileFailed ruleName msg), e, 1)
      | Except.ok compiled =>
        let e' := if e.CacheEnabled then
            { e with compiledCache := mapSet e.compiledCache ruleName compiled }
          else e
        if compiled.runOk then (Except.ok compiled, e', 1)
        else (Except.error (RunError.runFailed ruleName), e', 1)

/-- Embeds `Engine.RunRuleAndGetResult` (anko.go:146-157): runs the rule
and extracts the Tengo variable `result`, failing when the program never
set it. -/
def RunRuleAndGetResult (compile : String → Except String Compiled) (e : Engine)
    (ruleName : String) : Except RunError Value × Engine × Nat :=
  match RunRule compile e ruleName with
  | (Except.error err, e', n) => (Except.error err, e', n)
  | (Except.ok compiled, e', n) =>
    match compiled.get "result" with
    | none => (Except.error (RunError.missingResult ruleName), e', n)
    | some v => (Except.ok v, e', n)

/-- Embeds the fingerprint bookkeeping block shared by the four category
entry points (anko.go:164-170, 205-210, 234-239, 273-278): when caching is
enabled, compare `serializeEnv envVars` with the recorded last input for
the rule and, on a miss or change, evict the cached program and record the
new fingerprint. -/
def fingerprintCheck (e : Engine) (ruleName : String)
    (envVars : List (String × Value)) : Engine :=
  if e.CacheEnabled then
    match List.lookup ruleName e.lastInputs with
    | some prev =>
      if prev ≠ serializeEnv envVars then
        { e with compiledCache := mapDel e.compiledCache ruleName,
                 lastInputs := mapSet e.lastInputs ruleName (serializeEnv envVars) }
      else e
    | none =>
      { e with compiledCache := mapDel e.compiledCache ruleName,
               lastInputs := mapSet e.lastInputs ruleName (serializeEnv envVars) }
  else e

/-- Embeds `Engine.AddEnvVar` (anko.go:302): set a key of the persistent
environment map. -/
def AddEnvVar (e : Engine) (key : String) (value : Value) : Engine :=
  { e with Env := mapSet e.Env key value }

/-- The shared shape of the four category entry points before validation:
fingerprint bookkeeping under `ruleName`, environment injection under
`envKey`, then `RunRuleAndGetResult` under `ruleName`. -/
def ruleInvoke (compile : String → Except String Compiled) (e : Engine)
    (ruleName envKey : String) (envVars : List (String × Value)) :
    Except RunError Value × Engine × Nat :=
  RunRuleAndGetResult compile
    (AddEnvVar (fingerprintCheck e ruleName envVars) envKey (Value.record envVars))
    ruleName

/-- Go type assertion `item.(map[string]any)`. -/
def Value.asMap? : Value → Option (List (String × Value))
  | .record m => some m
  | _ => none

/-- Tengo `Variable.Array()`: the underlying slice, or nil when the value
is not an array. -/
def Value.toArr : Value → List Value
  | .seq l => l
  | _ => []

/-- Tengo `Variable.Map()`: the underlying map, or nil when the value is
not a map. -/
def Value.toMap : Value → List (String × Value)
  | .record m => m
  | _ => []

/-- Go type test `val.([]any)`. -/
def Value.isSeq : Value → Bool
  | .seq _ => true
  | _ => false

/-- Embeds the first validation loop of `SearchRule`/`ChapterListRule`
(anko.go:178-190 and 248-258): walk the result items in order; a
non-map item is a hard error carrying its index, and the first missing
required key on a map item is a hard error carrying the index and key. -/
def checkItems (fn : String) (required : List String) :
    Nat → List Value → Except RunError Unit
  | _, [] => Except.ok ()
  | i, item :: rest =>
    match item.asMap? with
    | none => Except.error (RunError.itemNotMap fn i)
    | some m =>
      match required.find? (fun key => (List.lookup key m).isNone) with
      | some key => Except.error (RunError.itemMissingKey fn i key)
      | none => checkItems fn required (i + 1) rest

/-- Embeds the validation of `SearchRule`/`ChapterListRule`
(anko.go:177-199 and 247-267): the checking loop over all items followed
by the second loop that keeps the map items. -/
def validateItems (fn : String) (arr : List Value) :
    Except RunError (List (List (String × Value))) :=
  match checkItems fn ["title", "url"] 0 arr with
  | Except.error err => Except.error err
  | Except.ok _ => Except.ok (arr.filterMap Value.asMap?)

/-- Embeds `Engine.SearchRule` (anko.go:162-199). -/
def SearchRule (compile : String → Except String Compiled) (e : Engine)
    (envVars : List (String × Value)) :
    Except RunError (List (List (String × Value))) × Engine × Nat :=
  match ruleInvoke compile e "search" "search" envVars with
  | (Except.error err, e', n) => (Except.error err, e', n)
  | (Except.ok v, e', n) => (validateItems "SearchRule" v.toArr, e', n)

/-- Embeds `Engine.ChapterListRule` (anko.go:232-267): rule, cache and
fingerprint bookkeeping under `"chapter-list"`, but the invocation inputs
are injected under the environment key `"chapter_list"` (anko.go:241). -/
def ChapterListRule (compile : String → Except String Compiled) (e : Engine)
    (envVars : List (String × Value)) :
    Except RunError (List (List (String × Value))) × Engine × Nat :=
  match ruleInvoke compile e "chapter-list" "chapter_list" envVars with
  | (Except.error err, e', n) => (Except.error err, e', n)
  | (Except.ok v, e', n) => (validateItems "ChapterListRule" v.toArr, e', n)

/-- The required item-info keys, in the order checked (anko.go:218). -/
def infoRequired : List String :=
  ["title", "cover", "author", "description", "status", "genres"]

/-- Embeds the validation loop of `NovelInfoRule` (anko.go:218-228):
each required key must be present, and `genres` must additionally be an
array; on success the record is returned unchanged. -/
def validateInfo : List String → List (String × Value) →
    Except RunError (List (String × Value))
  | [], info => Except.ok info
  | key :: rest, info =>
    match List.lookup key info with
    | none => Except.error (RunError.infoMissingKey key)
    | some val =>
      if key == "genres" then
        if val.isSeq then validateInfo rest info
        else Except.error RunError.infoGenresNotArray
      else validateInfo rest info

/-- Embeds `Engine.NovelInfoRule` (anko.go:203-229). -/
def NovelInfoRule (compile : String → Except String Compiled) (e : Engine)
    (envVars : List (String × Value)) :
    Except RunError (List (String × Value)) × Engine × Nat :=
  match ruleInvoke compile e "info" "info" envVars with
  | (Except.error err, e', n) => (Except.error err, e', n)
  | (Except.ok v, e', n) => (validateInfo infoRequired v.toMap, e', n)

/-- The required content keys, in the order checked (anko.go:286). -/
def contentRequired : List String := ["title", "content"]

/-- Embeds the validation loop of `ContentRule` (anko.go:286-291). -/
def validateContent (content : List (String × Value)) :
    Except RunError (List (String × Value)) :=
  match contentRequired.find? (fun key => (List.lookup key content).isNone) with
  | some key => Except.error (RunError.contentMissingKey key)
  | none => Except.ok content

/-- Embeds `Engine.ContentRule` (anko.go:271-293). -/
def ContentRule (compile : String → Except String Compiled) (e : Engine)
    (envVars : List (String × Value)) :
    Except RunError (List (String × Value)) × Engine × Nat :=
  match ruleInvoke compile e "content" "content" envVars with
  | (Except.error err, e', n) => (Except.error err, e', n)
  | (Except.ok v, e', n) => (validateContent v.toMap, e', n)

/-- A first invocation of a category rule (no recorded fingerprint) whose
compilation succeeds: the compiled program is stored, the fingerprint is
recorded, and exactly one compile event happens. -/
theorem ruleInvoke_fresh_eq (compile : String → Except String Compiled)
    (e : Engine) (rn ek : String) (env : List (String × Value)) (rule : Rule)
    (c : Compiled)
    (hc : e.CacheEnabled = true)
    (hli : List.lookup rn e.lastInputs = none)
    (hr : List.lookup rn e.Rules = some rule)
    (hcomp : compile (finalCodeOf rule e.Functions e.denyLibs) = Except.ok c) :
    ruleInvoke compile e rn ek env =
      ((if c.runOk then
          (match c.get "result" with
           | none => Except.error (RunError.missingResult rn)
           | some v => Except.ok v)
        else Except.error (RunError.runFailed rn)),
       { e with Env := mapSet e.Env ek (Value.record env),
                compiledCache := mapSet (mapDel e.compiledCache rn) rn c,
                lastInputs := mapSet e.lastInputs rn (serializeEnv env) }, 1) := by
  cases hrun : c.runOk <;>
    simp [ruleInvoke, fingerprintCheck, AddEnvVar, RunRuleAndGetResult, RunRule,
      hc, hli, hr, hcomp, hrun, lookup_mapDel_self]
  cases hg : c.get "result" <;> simp [hg]

/-- An invocation whose recorded fingerprint differs from the current one:
the stale cache entry is evicted and a fresh compile happens. -/
theorem ruleInvoke_changed_eq (compile : String → Except String Compiled)
    (e : Engine) (rn ek : String) (env : List (String × Value)) (rule : Rule)
    (c : Compiled) (prev : String)
    (hc : e.CacheEnabled = true)
    (hli : List.lookup rn e.lastInputs = some prev)
    (hprev : prev ≠ serializeEnv env)
    (hr : List.lookup rn e.Rules = some rule)
    (hcomp : compile (finalCodeOf rule e.Functions e.denyLibs) = Except.ok c) :
    ruleInvoke compile e rn ek env =
      ((if c.runOk then
          (match c.get "result" with
           | none => Except.error (RunError.missingResult rn)
           | some v => Except.ok v)
        else Except.error (RunError.runFailed rn)),
       { e with Env := mapSet e.Env ek (Value.record env),
                compiledCache := mapSet (mapDel e.compiledCache rn) rn c,
                lastInputs := mapSet e.lastInputs rn (serializeEnv env) }, 1) := by
  cases hrun : c.runOk <;>
    simp [ruleInvoke, fingerprintCheck, AddEnvVar, RunRuleAndGetResult, RunRule,
      hc, hli, hprev, hr, hcomp, hrun, lookup_mapDel_self]
  cases hg : c.get "result" <;> simp [hg]

/-- An invocation whose recorded fingerprint matches and whose cache holds
a compiled program: the cached program is re-run and its named result
returned, with no compile event. -/
theorem ruleInvoke_hit_eq (compile : String → Except String Compiled)
    (e : Engine) (rn ek : String) (env : List (String × Value)) (c : Compiled)
    (hc : e.CacheEnabled = true)
    (hli : List.lookup rn e.lastInputs = some (serializeEnv env))
    (hcc : List.lookup rn e.compiledCache = some c) :
    ruleInvoke compile e rn ek env =
      ((match c.get "result" with
        | none => Except.error (RunError.missingResult rn)
        | some v => Except.ok v),
       { e with Env := mapSet e.Env ek (Value.record env) }, 0) := by
  simp [ruleInvoke, fingerprintCheck, AddEnvVar, RunRuleAndGetResult, RunRule,
    hc, hli, hcc]
  cases hg : c.get "result" <;> simp [hg]

/-- A first invocation of a rule identifier that has no rule definition:
`RuleNotFound`, no compile event, bookkeeping still updated. -/
theorem ruleInvoke_notFound_eq (compile : String → Except String Compiled)
    (e : Engine) (rn ek : String) (env : List (String × Value))
    (hc : e.CacheEnabled = true)
    (hli : List.lookup rn e.lastInputs = none)
    (hr : List.lookup rn e.Rules = none) :
    ruleInvoke compile e rn ek env =
      (Except.error (RunError.ruleNotFound rn),
       { e with Env := mapSet e.Env ek (Value.record env),
                compiledCache := mapDel e.compiledCache rn,
                lastInputs := mapSet e.lastInputs rn (serializeEnv env) }, 0) := by
  simp [ruleInvoke, fingerprintCheck, AddEnvVar, RunRuleAndGetResult, RunRule,
    hc, hli, hr, lookup_mapDel_self]

/-- The engine state and compile count of `SearchRule` are those of its
underlying invocation; validation touches only the result component. -/
theorem SearchRule_snd (compile : String → Except String Compiled) (e : Engine)
    (env : List (String × Value)) :
    (SearchRule compile e env).2 = (ruleInvoke compile e "search" "search" env).2 := by
  unfold SearchRule
  rcases h : ruleInvoke compile e "search" "search" env with ⟨r, e', n⟩
  cases r <;> simp

/-- A compiled program whose execution fails and which set no globals. -/
def failingCompiled : Compiled := ⟨false, fun _ => none⟩

/-- An engine whose cache already holds `failingCompiled` for rule
`"r"`, caching enabled. -/
def engineWithFailingCache : Engine :=
  ⟨[], [], [], [], true, [("r", failingCompiled)], []⟩

/-- C1 counterexample: on the cache-hit path the source discards the error
of `compiledCache.Run()` (anko.go:108), so a cached program whose
execution fails is reported as a success, not as a `RuntimeError`. -/
theorem RunRule_cached_failure_reported_success :
    (RunRule (fun _ => Except.error "") engineWithFailingCache "r").1 =
        Except.ok failingCompiled ∧
    failingCompiled.runOk = false ∧
    (RunRule (fun _ => Except.error "") engineWithFailingCache "r").1 ≠
        Except.error (RunError.runFailed "r") :=
  ⟨rfl, rfl, fun h => Except.noConfusion h⟩

/-- C1 amended: on the fresh-compile path a failing execution makes
`RunRule` return the `RuntimeError`-class error wrapping the rule
identifier; the cache-hit path discards the re-run's error. -/
theorem RunRule_fresh_failure_is_runtime_error
    (compile : String → Except String Compiled) (e : Engine) (ruleName : String)
    (rule : Rule) (c : Compiled)
    (hmiss : (if e.CacheEnabled then List.lookup ruleName e.compiledCache
              else none) = none)
    (hr : List.lookup ruleName e.Rules = some rule)
    (hcomp : compile (finalCodeOf rule e.Functions e.denyLibs) = Except.ok c)
    (hrun : c.runOk = false) :
    (RunRule compile e ruleName).1 = Except.error (RunError.runFailed ruleName) := by
  simp [RunRule, hmiss, hr, hcomp, hrun]

/-- Witness for the amended C1 theorem at a concrete engine. -/
theorem RunRule_fresh_failure_witness :
    (RunRule (fun _ => Except.ok failingCompiled)
        ⟨[("r", ⟨[], "x"⟩)], [], [], [], false, [], []⟩ "r").1 =
      Except.error (RunError.runFailed "r") :=
  RunRule_fresh_failure_is_runtime_error _ _ _ ⟨[], "x"⟩ failingCompiled
    rfl rfl rfl rfl

/-- C10: when caching is enabled and a fresh compilation succeeds, the
compiled program is stored in the cache before execution, so when the
execution then fails the invocation returns an error while the cache
retains the program, and a repeat invocation with the same fingerprint
takes the cache-hit path (no compile event). -/
theorem SearchRule_caches_before_run (compile : String → Except String Compiled)
    (e : Engine) (env : List (String × Value)) (rule : Rule) (c : Compiled)
    (hc : e.CacheEnabled = true)
    (hli : List.lookup "search" e.lastInputs = none)
    (hr : List.lookup "search" e.Rules = some rule)
    (hcomp : compile (finalCodeOf rule e.Functions e.denyLibs) = Except.ok c)
    (hrun : c.runOk = false) :
    (SearchRule compile e env).1 = Except.error (RunError.runFailed "search") ∧
    List.lookup "search" (SearchRule compile e env).2.1.compiledCache = some c ∧
    (SearchRule compile (SearchRule compile e env).2.1 env).2.2 = 0 := by
  have h1 := ruleInvoke_fresh_eq compile e "search" "search" env rule c hc hli hr hcomp
  have hsnd := SearchRule_snd compile e env
  have hfst : (SearchRule compile e env).1 =
      Except.error (RunError.runFailed "search") := by
    unfold SearchRule
    rw [h1, hrun]
    simp
  have he1 : (SearchRule compile e env).2.1 =
      { e with Env := mapSet e.Env "search" (Value.record env),
               compiledCache := mapSet (mapDel e.compiledCache "search") "search" c,
               lastInputs := mapSet e.lastInputs "search" (serializeEnv env) } := by
    rw [hsnd, h1]
  refine ⟨hfst, ?_, ?_⟩
  · rw [he1]
    exact lookup_mapSet_self _ _ _
  · rw [SearchRule_snd, he1,
      ruleInvoke_hit_eq compile
        { e with Env := mapSet e.Env "search" (Value.record env),
                 compiledCache := mapSet (mapDel e.compiledCache "search") "search" c,
                 lastInputs := mapSet e.lastInputs "search" (serializeEnv env) }
        "search" "search" env c hc
        (lookup_mapSet_self _ _ _) (lookup_mapSet_self _ _ _)]

/-- Witness for C10 at a concrete engine and oracle. -/
theorem SearchRule_caches_before_run_witness :
    (SearchRule (fun _ => Except.ok failingCompiled)
        ⟨[("search", ⟨[], "x"⟩)], [], [], [], true, [], []⟩ []).1 =
      Except.error (RunError.runFailed "search") ∧
    List.lookup "search"
        (SearchRule (fun _ => Except.ok failingCompiled)
          ⟨[("search", ⟨[], "x"⟩)], [], [], [], true, [], []⟩ []).2.1.compiledCache =
      some failingCompiled ∧
    (SearchRule (fun _ => Except.ok failingCompiled)
        (SearchRule (fun _ => Except.ok failingCompiled)
          ⟨[("search", ⟨[], "x"⟩)], [], [], [], true, [], []⟩ []).2.1 []).2.2 = 0 :=
  SearchRule_caches_before_run _ _ [] ⟨[], "x"⟩ failingCompiled rfl rfl rfl rfl rfl

/-- C3: for a category rule identifier, invoking with fingerprint F1 and
then a different fingerprint F2 produces two compile events, while
invoking twice with the same fingerprint produces exactly one compile
event (the second invocation reuses the cached program), given caching
enabled and no failures.  All four category entry points are this
invocation followed by result validation, which adds no compile event. -/
theorem ruleInvoke_cache_coherency (compile : String → Except String Compiled)
    (e : Engine) (rn ek : String) (rule : Rule) (c : Compiled)
    (env1 : List (String × Value))
    (hc : e.CacheEnabled = true)
    (hli : List.lookup rn e.lastInputs = none)
    (hr : List.lookup rn e.Rules = some rule)
    (hcomp : compile (finalCodeOf rule e.Functions e.denyLibs) = Except.ok c)
    (_hrun : c.runOk = true) :
    (∀ env2, serializeEnv env1 ≠ serializeEnv env2 →
      (ruleInvoke compile e rn ek env1).2.2 = 1 ∧
      (ruleInvoke compile (ruleInvoke compile e rn ek env1).2.1 rn ek env2).2.2 = 1) ∧
    (∀ env2, serializeEnv env1 = serializeEnv env2 →
      (ruleInvoke compile e rn ek env1).2.2 = 1 ∧
      (ruleInvoke compile (ruleInvoke compile e rn ek env1).2.1 rn ek env2).2.2 = 0) := by
  have h1 := ruleInvoke_fresh_eq compile e rn ek env1 rule c hc hli hr hcomp
  constructor
  · intro env2 hne
    refine ⟨by rw [h1], ?_⟩
    simp only [h1]
    rw [ruleInvoke_changed_eq compile
      { e with Env := mapSet e.Env ek (Value.record env1),
               compiledCache := mapSet (mapDel e.compiledCache rn) rn c,
               lastInputs := mapSet e.lastInputs rn (serializeEnv env1) }
      rn ek env2 rule c (serializeEnv env1) hc
      (lookup_mapSet_self _ _ _) hne hr hcomp]
  · intro env2 heq
    refine ⟨by rw [h1], ?_⟩
    simp only [h1]
    rw [ruleInvoke_hit_eq compile
      { e with Env := mapSet e.Env ek (Value.record env1),
               compiledCache := mapSet (mapDel e.compiledCache rn) rn c,
               lastInputs := mapSet e.lastInputs rn (serializeEnv env1) }
      rn ek env2 c hc
      ((lookup_mapSet_self _ _ _).trans (by rw [heq]))
      (lookup_mapSet_self _ _ _)]

/-- Witness for C3 at a concrete engine, rule and pair of environments. -/
theorem ruleInvoke_cache_coherency_witness :
    ((ruleInvoke (fun _ => Except.ok ⟨true, fun _ => none⟩)
        ⟨[("search", ⟨[], "x"⟩)], [], [], [], true, [], []⟩
        "search" "search" [("q", Value.str "a")]).2.2 = 1 ∧
      (ruleInvoke (fun _ => Except.ok ⟨true, fun _ => none⟩)
        (ruleInvoke (fun _ => Except.ok ⟨true, fun _ => none⟩)
          ⟨[("search", ⟨[], "x"⟩)], [], [], [], true, [], []⟩
          "search" "search" [("q", Value.str "a")]).2.1
        "search" "search" [("q", Value.str "b")]).2.2 = 1) ∧
    ((ruleInvoke (fun _ => Except.ok ⟨true, fun _ => none⟩)
        ⟨[("search", ⟨[], "x"⟩)], [], [], [], true, [], []⟩
        "search" "search" [("q", Value.str "a")]).2.2 = 1 ∧
      (ruleInvoke (fun _ => Except.ok ⟨true, fun _ => none⟩)
        (ruleInvoke (fun _ => Except.ok ⟨true, fun _ => none⟩)
          ⟨[("search", ⟨[], "x"⟩)], [], [], [], true, [], []⟩
          "search" "search" [("q", Value.str "a")]).2.1
        "search" "search" [("q", Value.str "a")]).2.2 = 0) :=
  ⟨(ruleInvoke_cache_coherency (fun _ => Except.ok ⟨true, fun _ => none⟩)
      ⟨[("search", ⟨[], "x"⟩)], [], [], [], true, [], []⟩
      "search" "search" ⟨[], "x"⟩ ⟨true, fun _ => none⟩
      [("q", Value.str "a")] rfl rfl rfl rfl rfl).1
      [("q", Value.str "b")] (by decide),
   (ruleInvoke_cache_coherency (fun _ => Except.ok ⟨true, fun _ => none⟩)
      ⟨[("search", ⟨[], "x"⟩)], [], [], [], true, [], []⟩
      "search" "search" ⟨[], "x"⟩ ⟨true, fun _ => none⟩
      [("q", Value.str "a")] rfl rfl rfl rfl rfl).2
      [("q", Value.str "a")] rfl⟩

/-- An invocation with caching disabled: always a fresh compile, and the
cache is left untouched. -/
theorem ruleInvoke_nocache_eq (compile : String → Except String Compiled)
    (e : Engine) (rn ek : String) (env : List (String × Value)) (rule : Rule)
    (c : Compiled)
    (hc : e.CacheEnabled = false)
    (hr : List.lookup rn e.Rules = some rule)
    (hcomp : compile (finalCodeOf rule e.Functions e.denyLibs) = Except.ok c) :
    ruleInvoke compile e rn ek env =
      ((if c.runOk then
          (match c.get "result" with
           | none => Except.error (RunError.missingResult rn)
           | some v => Except.ok v)
        else Except.error (RunError.runFailed rn)),
       { e with Env := mapSet e.Env ek (Value.record env) }, 1) := by
  cases hrun : c.runOk <;>
    simp [ruleInvoke, fingerprintCheck, AddEnvVar, RunRuleAndGetResult, RunRule,
      hc, hr, hcomp, hrun]
  cases hg : c.get "result" <;> simp [hg]

/-- C6: after a successful compile and run, `RunRuleAndGetResult` fails
exactly when the program never set the output variable `result`
(`MissingResult`), and returns the extracted value otherwise; through the
public entry point, a content rule whose body sets
`result = \x7btitle: "T", content: "C"\x7d` yields exactly that record with
no error. -/
theorem RunRuleAndGetResult_missing_result
    (compile : String → Except String Compiled) :
    (∀ e r c, (RunRule compile e r).1 = Except.ok c →
      (((RunRuleAndGetResult compile e r).1 =
          Except.error (RunError.missingResult r)) ↔ c.get "result" = none) ∧
      (∀ v, c.get "result" = some v →
        (RunRuleAndGetResult compile e r).1 = Except.ok v)) ∧
    (∀ e env rule c,
      e.CacheEnabled = false →
      List.lookup "content" e.Rules = some rule →
      compile (finalCodeOf rule e.Functions e.denyLibs) = Except.ok c →
      c.runOk = true →
      c.get "result" =
        some (Value.record [("title", Value.str "T"), ("content", Value.str "C")]) →
      (ContentRule compile e env).1 =
        Except.ok [("title", Value.str "T"), ("content", Value.str "C")]) := by
  constructor
  · intro e r c hok
    rcases hR : RunRule compile e r with ⟨res, e', n⟩
    rw [hR] at hok
    simp only at hok
    subst hok
    cases hg : c.get "result" with
    | none =>
      refine ⟨⟨fun _ => rfl, fun _ => ?_⟩, fun v hv => Option.noConfusion hv⟩
      simp [RunRuleAndGetResult, hR, hg]
    | some w =>
      have hval : (RunRuleAndGetResult compile e r).1 = Except.ok w := by
        simp [RunRuleAndGetResult, hR, hg]
      refine ⟨⟨fun hcontra => ?_, fun hnone => Option.noConfusion hnone⟩,
        fun v hv => ?_⟩
      · rw [hval] at hcontra; exact Except.noConfusion hcontra
      · cases hv
        exact hval
  · intro e env rule c hce hr hcomp hrun hget
    simp only [ContentRule]
    rw [ruleInvoke_nocache_eq compile e "content" "content" env rule c hce hr hcomp]
    simp only [hrun, if_true, hget]
    rfl

/-- Witness for C6 at a concrete content rule whose program sets
`result` to the expected record. -/
theorem RunRuleAndGetResult_missing_result_witness :
    (ContentRule
        (fun _ => Except.ok ⟨true, fun n =>
          if n == "result" then
            some (Value.record [("title", Value.str "T"), ("content", Value.str "C")])
          else none⟩)
        ⟨[("content", ⟨[], "x"⟩)], [], [], [], false, [], []⟩ []).1 =
      Except.ok [("title", Value.str "T"), ("content", Value.str "C")] :=
  (RunRuleAndGetResult_missing_result _).2 _ [] ⟨[], "x"⟩
    ⟨true, fun n =>
      if n == "result" then
        some (Value.record [("title", Value.str "T"), ("content", Value.str "C")])
      else none⟩
    rfl rfl rfl rfl rfl

/-- C9: `ChapterListRule` injects the caller's inputs under the
environment key `"chapter_list"` while rule lookup, cache and fingerprint
bookkeeping use the identifier `"chapter-list"`; `SearchRule`,
`NovelInfoRule` and `ContentRule` use one and the same string for both
roles. -/
theorem ChapterListRule_env_key_mismatch
    (compile : String → Except String Compiled) (e : Engine)
    (envVars : List (String × Value))
    (hc : e.CacheEnabled = true)
    (hli : List.lookup "chapter-list" e.lastInputs = none)
    (hliU : List.lookup "chapter_list" e.lastInputs = none)
    (hr : List.lookup "chapter-list" e.Rules = none)
    (henv : List.lookup "chapter-list" e.Env = none) :
    List.lookup "chapter_list" (ChapterListRule compile e envVars).2.1.Env =
        some (Value.record envVars) ∧
    List.lookup "chapter-list" (ChapterListRule compile e envVars).2.1.Env = none ∧
    List.lookup "chapter-list" (ChapterListRule compile e envVars).2.1.lastInputs =
        some (serializeEnv envVars) ∧
    List.lookup "chapter_list" (ChapterListRule compile e envVars).2.1.lastInputs =
        none ∧
    (ChapterListRule compile e envVars).1 =
        Except.error (RunError.ruleNotFound "chapter-list") ∧
    ("chapter_list" : String) ≠ "chapter-list" ∧
    (∀ e' env', e'.CacheEnabled = true →
      List.lookup "search" e'.lastInputs = none →
      List.lookup "search" e'.Rules = none →
      List.lookup "search" (SearchRule compile e' env').2.1.Env =
          some (Value.record env') ∧
      (SearchRule compile e' env').1 =
          Except.error (RunError.ruleNotFound "search")) ∧
    (∀ e' env', e'.CacheEnabled = true →
      List.lookup "info" e'.lastInputs = none →
      List.lookup "info" e'.Rules = none →
      List.lookup "info" (NovelInfoRule compile e' env').2.1.Env =
          some (Value.record env') ∧
      (NovelInfoRule compile e' env').1 =
          Except.error (RunError.ruleNotFound "info")) ∧
    (∀ e' env', e'.CacheEnabled = true →
      List.lookup "content" e'.lastInputs = none →
      List.lookup "content" e'.Rules = none →
      List.lookup "content" (ContentRule compile e' env').2.1.Env =
          some (Value.record env') ∧
      (ContentRule compile e' env').1 =
          Except.error (RunError.ruleNotFound "content")) := by
  have h1 := ruleInvoke_notFound_eq compile e "chapter-list" "chapter_list" envVars hc hli hr
  have hch : ChapterListRule compile e envVars =
      (Except.error (RunError.ruleNotFound "chapter-list"),
       { e with Env := mapSet e.Env "chapter_list" (Value.record envVars),
                compiledCache := mapDel e.compiledCache "chapter-list",
                lastInputs := mapSet e.lastInputs "chapter-list" (serializeEnv envVars) },
       0) := by
    simp only [ChapterListRule, h1]
  refine ⟨?_, ?_, ?_, ?_, ?_, by decide, ?_, ?_, ?_⟩
  · rw [hch]; exact lookup_mapSet_self _ _ _
  · rw [hch]
    exact (lookup_mapSet_ne _ _ _ _ (by decide)).trans henv
  · rw [hch]; exact lookup_mapSet_self _ _ _
  · rw [hch]
    exact (lookup_mapSet_ne _ _ _ _ (by decide)).trans hliU
  · rw [hch]
  · intro e' env' hc' hli' hr'
    have h2 := ruleInvoke_notFound_eq compile e' "search" "search" env' hc' hli' hr'
    have hs : SearchRule compile e' env' =
        (Except.error (RunError.ruleNotFound "search"),
         { e' with Env := mapSet e'.Env "search" (Value.record env'),
                   compiledCache := mapDel e'.compiledCache "search",
                   lastInputs := mapSet e'.lastInputs "search" (serializeEnv env') },
         0) := by
      simp only [SearchRule, h2]
    exact ⟨by rw [hs]; exact lookup_mapSet_self _ _ _, by rw [hs]⟩
  · intro e' env' hc' hli' hr'
    have h2 := ruleInvoke_notFound_eq compile e' "info" "info" env' hc' hli' hr'
    have hs : NovelInfoRule compile e' env' =
        (Except.error (RunError.ruleNotFound "info"),
         { e' with Env := mapSet e'.Env "info" (Value.record env'),
                   compiledCache := mapDel e'.compiledCache "info",
                   lastInputs := mapSet e'.lastInputs "info" (serializeEnv env') },
         0) := by
      simp only [NovelInfoRule, h2]
    exact ⟨by rw [hs]; exact lookup_mapSet_self _ _ _, by rw [hs]⟩
  · intro e' env' hc' hli' hr'
    have h2 := ruleInvoke_notFound_eq compile e' "content" "content" env' hc' hli' hr'
    have hs : ContentRule compile e' env' =
        (Except.error (RunError.ruleNotFound "content"),
         { e' with Env := mapSet e'.Env "content" (Value.record env'),
                   compiledCache := mapDel e'.compiledCache "content",
                   lastInputs := mapSet e'.lastInputs "content" (serializeEnv env') },
         0) := by
      simp only [ContentRule, h2]
    exact ⟨by rw [hs]; exact lookup_mapSet_self _ _ _, by rw [hs]⟩

/-- Witness for C9 at a concrete empty engine. -/
theorem ChapterListRule_env_key_mismatch_witness :
    List.lookup "chapter_list"
        (ChapterListRule (fun _ => Except.error "")
          ⟨[], [], [], [], true, [], []⟩ [("u", Value.str "v")]).2.1.Env =
      some (Value.record [("u", Value.str "v")]) ∧
    (ChapterListRule (fun _ => Except.error "")
        ⟨[], [], [], [], true, [], []⟩ [("u", Value.str "v")]).1 =
      Except.error (RunError.ruleNotFound "chapter-list") :=
  ⟨(ChapterListRule_env_key_mismatch (fun _ => Except.error "")
      ⟨[], [], [], [], true, [], []⟩ [("u", Value.str "v")]
      rfl rfl rfl rfl rfl).1,
   (ChapterListRule_env_key_mismatch (fun _ => Except.error "")
      ⟨[], [], [], [], true, [], []⟩ [("u", Value.str "v")]
      rfl rfl rfl rfl rfl).2.2.2.2.1⟩

/-- Every recognized capability name (standard or extra) lacks the
function-reference marker. -/
theorem moduleNames_not_fn :
    ∀ m ∈ stdlibModuleNames ++ extraModuleNames,
      ("fn:".data.isPrefixOf m.data) = false := by decide

/-- Processing the declarations with a denied, recognizable capability
name: the name never enters the allowed list, the preamble equals the one
built from the declarations with that name removed, and every occurrence
emits a denial warning. -/
theorem buildImports_deny (functions : List (String × String))
    (denyList : List String) (d : String) (hd : d ∈ denyList)
    (hfn : ("fn:".data.isPrefixOf d.data) = false) :
    ∀ imports : List String,
      d ∉ (buildImports functions denyList imports).2.1 ∧
      (buildImports functions denyList imports).1 =
        (buildImports functions denyList (imports.filter (fun i => i != d))).1 ∧
      (d ∈ imports →
        Warning.importDenied d ∈ (buildImports functions denyList imports).2.2) := by
  intro imports
  induction imports with
  | nil => simp [buildImports]
  | cons imp rest ih =>
    obtain ⟨ih1, ih2, ih3⟩ := ih
    by_cases heq : imp = d
    · subst heq
      refine ⟨by simp [buildImports, hfn, hd, ih1],
              by simp [buildImports, hfn, hd, List.filter_cons, ih2],
              fun _ => by simp [buildImports, hfn, hd]⟩
    · have hfilter : (imp :: rest).filter (fun i => i != d) =
          imp :: rest.filter (fun i => i != d) := by
        simp [List.filter_cons, bne, beq_eq_false_iff_ne.mpr heq]
      have hmemr : d ∈ imp :: rest → d ∈ rest := by
        intro hmem
        rcases List.mem_cons.mp hmem with h | h
        · exact absurd h.symm heq
        · exact h
      by_cases hfnp : ("fn:".data.isPrefixOf imp.data) = true
      · cases hlook : List.lookup (String.mk (imp.data.drop 3)) functions with
        | none =>
          refine ⟨by simp [buildImports, hfnp, hlook, ih1],
                  by simp [buildImports, hfnp, hlook, hfilter, ih2],
                  fun hmem => ?_⟩
          simp only [buildImports, hfnp, if_true, hlook]
          exact List.mem_cons_of_mem _ (ih3 (hmemr hmem))
        | some lit =>
          refine ⟨by simp [buildImports, hfnp, hlook, ih1],
                  by simp [buildImports, hfnp, hlook, hfilter, ih2],
                  fun hmem => ?_⟩
          simp only [buildImports, hfnp, if_true, hlook]
          exact ih3 (hmemr hmem)
      · by_cases hdeny : imp ∈ denyList
        · refine ⟨by simp [buildImports, hfnp, hdeny, ih1],
                  by simp [buildImports, hfnp, hdeny, hfilter, ih2],
                  fun hmem => ?_⟩
          simp [buildImports, hfnp, hdeny]
          exact Or.inr (ih3 (hmemr hmem))
        · by_cases hacc : imp ∈ stdlibModuleNames ∨ imp ∈ extraModuleNames
          · refine ⟨?_, by simp [buildImports, hfnp, hdeny, hacc, hfilter, ih2],
                    fun hmem => ?_⟩
            · simp [buildImports, hfnp, hdeny, hacc]
              exact ⟨fun h => heq h.symm, ih1⟩
            · simp [buildImports, hfnp, hdeny, hacc]
              exact ih3 (hmemr hmem)
          · refine ⟨by simp [buildImports, hfnp, hdeny, hacc, ih1],
                    by simp [buildImports, hfnp, hdeny, hacc, hfilter, ih2],
                    fun hmem => ?_⟩
            simp [buildImports, hfnp, hdeny, hacc]
            exact ih3 (hmemr hmem)

/-- C7: a capability present in both the allow set (standard or extra
module names) and the deny list is excluded from the allowed module list
and from the preamble (the preamble equals the one built without those
declarations), and each occurrence emits a denial warning — never a
silent acceptance. -/
theorem buildPreamble_deny_precedence (rule : Rule)
    (functions : List (String × String)) (denyList : List String) (d : String)
    (hd : d ∈ denyList)
    (hallow : d ∈ stdlibModuleNames ∨ d ∈ extraModuleNames) :
    d ∉ (buildPreamble rule functions denyList).2.1 ∧
    (buildPreamble rule functions denyList).1 =
      (buildPreamble { rule with Imports := rule.Imports.filter (fun i => i != d) }
        functions denyList).1 ∧
    (d ∈ rule.Imports →
      Warning.importDenied d ∈ (buildPreamble rule functions denyList).2.2) := by
  have hfn : ("fn:".data.isPrefixOf d.data) = false := by
    refine moduleNames_not_fn d ?_
    rcases hallow with h | h
    · exact List.mem_append_left _ h
    · exact List.mem_append_right _ h
  simpa [buildPreamble] using buildImports_deny functions denyList d hd hfn rule.Imports

/-- Witness for C7: declaring the stdlib capability `fmt` while denying it. -/
theorem buildPreamble_deny_precedence_witness :
    "fmt" ∉ (buildPreamble ⟨["fmt"], "x"⟩ [] ["fmt"]).2.1 ∧
    (buildPreamble ⟨["fmt"], "x"⟩ [] ["fmt"]).1 =
      (buildPreamble ⟨List.filter (fun i => i != "fmt") ["fmt"], "x"⟩ [] ["fmt"]).1 ∧
    ("fmt" ∈ (["fmt"] : List String) →
      Warning.importDenied "fmt" ∈ (buildPreamble ⟨["fmt"], "x"⟩ [] ["fmt"]).2.2) :=
  buildPreamble_deny_precedence ⟨["fmt"], "x"⟩ [] ["fmt"] "fmt"
    (by decide) (Or.inl (by decide))

/-- Processing a resolvable function reference: its binding is written at
the head of the preamble and the allowed modules and warnings are those of
the remaining declarations. -/
theorem buildImports_fn_cons_some (functions : List (String × String))
    (denyList : List String) (key lit : String) (rest : List String)
    (hlit : List.lookup key functions = some lit) :
    buildImports functions denyList (("fn:" ++ key) :: rest) =
      ("\n" ++ ("fn_" ++ key.replace "." "_") ++ " := " ++ lit ++
         (buildImports functions denyList rest).1,
       (buildImports functions denyList rest).2.1,
       (buildImports functions denyList rest).2.2) := by
  have hpre : ("fn:".data.isPrefixOf ("fn:" ++ key).data) = true := by
    simp [String.data_append]
  have hkey : String.mk (("fn:" ++ key).data.drop 3) = key := by
    have h : ("fn:" ++ key).data = "fn:".data ++ key.data := rfl
    have h3 : "fn:".data.length = 3 := rfl
    rw [h, ← h3, List.drop_left]
  simp [buildImports, hpre, hkey, hlit]

/-- Processing a function reference whose key is absent from the table:
skipped with a warning, resolution continues with the remaining
declarations untouched. -/
theorem buildImports_fn_cons_none (functions : List (String × String))
    (denyList : List String) (key : String) (rest : List String)
    (hnone : List.lookup key functions = none) :
    buildImports functions denyList (("fn:" ++ key) :: rest) =
      ((buildImports functions denyList rest).1,
       (buildImports functions denyList rest).2.1,
       Warning.fnNotFound key :: (buildImports functions denyList rest).2.2) := by
  have hpre : ("fn:".data.isPrefixOf ("fn:" ++ key).data) = true := by
    simp [String.data_append]
  have hkey : String.mk (("fn:" ++ key).data.drop 3) = key := by
    have h : ("fn:" ++ key).data = "fn:".data ++ key.data := rfl
    have h3 : "fn:".data.length = 3 := rfl
    rw [h, ← h3, List.drop_left]
  simp [buildImports, hpre, hkey, hnone]

/-- Every processed declaration contributes a (possibly empty) head text
before the preamble of the remaining declarations. -/
theorem buildImports_cons_head (functions : List (String × String))
    (denyList : List String) (imp : String) (rest : List String) :
    ∃ c, (buildImports functions denyList (imp :: rest)).1 =
      c ++ (buildImports functions denyList rest).1 := by
  simp only [buildImports]
  split
  · split
    · exact ⟨"", rfl⟩
    · exact ⟨_, rfl⟩
  · split
    · exact ⟨"", rfl⟩
    · split
      · exact ⟨_, rfl⟩
      · exact ⟨"", rfl⟩

/-- A resolvable function reference anywhere among the declarations leaves
its binding text inside the final preamble. -/
theorem buildImports_fn_binding (functions : List (String × String))
    (denyList : List String) (key lit : String)
    (hlit : List.lookup key functions = some lit) :
    ∀ imports : List String, ("fn:" ++ key) ∈ imports →
      ∃ s t, (buildImports functions denyList imports).1 =
        s ++ ("\n" ++ ("fn_" ++ key.replace "." "_") ++ " := " ++ lit) ++ t := by
  intro imports
  induction imports with
  | nil => intro h; exact absurd h (List.not_mem_nil _)
  | cons imp rest ih =>
    intro hmem
    rcases List.mem_cons.mp hmem with h | h
    · rw [← h, buildImports_fn_cons_some functions denyList key lit rest hlit]
      exact ⟨"", (buildImports functions denyList rest).1, rfl⟩
    · obtain ⟨s, t, hst⟩ := ih h
      obtain ⟨c, hc⟩ := buildImports_cons_head functions denyList imp rest
      refine ⟨c ++ s, t, ?_⟩
      rw [hc, hst]
      simp [String.append_assoc]

/-- C8: a declaration `fn:key` with `key` in the function table makes the
preamble contain the binding `fn_<key with dots replaced> := <literal>`;
a declaration whose key is absent does not abort resolution — it is
skipped with a warning and the remaining declarations are processed
unchanged. -/
theorem buildPreamble_fn_inlining (functions : List (String × String))
    (denyList : List String) :
    (∀ (rule : Rule) (key lit : String), ("fn:" ++ key) ∈ rule.Imports →
      List.lookup key functions = some lit →
      ∃ s t, (buildPreamble rule functions denyList).1 =
        s ++ ("\n" ++ ("fn_" ++ key.replace "." "_") ++ " := " ++ lit) ++ t) ∧
    (∀ (key : String) (rest : List String), List.lookup key functions = none →
      buildImports functions denyList (("fn:" ++ key) :: rest) =
        ((buildImports functions denyList rest).1,
         (buildImports functions denyList rest).2.1,
         Warning.fnNotFound key :: (buildImports functions denyList rest).2.2)) :=
  ⟨fun rule key lit hmem hlit =>
    buildImports_fn_binding functions denyList key lit hlit rule.Imports hmem,
   fun key rest hnone => buildImports_fn_cons_none functions denyList key rest hnone⟩

/-- Witness for C8 at the fn:parseDate example table. -/
theorem buildPreamble_fn_inlining_witness :
    (∃ s t, (buildPreamble ⟨["fn:parseDate"], "x"⟩
        [("parseDate", "func(x)\x7breturn x\x7d")] []).1 =
      s ++ ("\n" ++ ("fn_" ++ "parseDate".replace "." "_") ++ " := " ++
        "func(x)\x7breturn x\x7d") ++ t) ∧
    buildImports [("parseDate", "func(x)\x7breturn x\x7d")] [] ("fn:missing" :: []) =
      ((buildImports [("parseDate", "func(x)\x7breturn x\x7d")] [] []).1,
       (buildImports [("parseDate", "func(x)\x7breturn x\x7d")] [] []).2.1,
       Warning.fnNotFound "missing" ::
         (buildImports [("parseDate", "func(x)\x7breturn x\x7d")] [] []).2.2) :=
  ⟨(buildPreamble_fn_inlining [("parseDate", "func(x)\x7breturn x\x7d")] []).1
      ⟨["fn:parseDate"], "x"⟩ "parseDate" "func(x)\x7breturn x\x7d"
      (by decide) rfl,
   (buildPreamble_fn_inlining [("parseDate", "func(x)\x7breturn x\x7d")] []).2
      "missing" [] rfl⟩

/-- An item passing the per-element checks of the search/chapter-list
validation: a record holding both required keys. -/
def itemOk (v : Value) : Bool :=
  match v.asMap? with
  | none => false
  | some m => (List.lookup "title" m).isSome && (List.lookup "url" m).isSome

/-- The checking loop walks past a prefix of passing items, advancing the
reported index by the prefix length. -/
theorem checkItems_ok_prefix (fn : String) :
    ∀ (pre : List Value) (i : Nat) (rest : List Value),
      (∀ u ∈ pre, itemOk u = true) →
      checkItems fn ["title", "url"] i (pre ++ rest) =
        checkItems fn ["title", "url"] (i + pre.length) rest := by
  intro pre
  induction pre with
  | nil => intro i rest _; simp
  | cons u pre' ih =>
    intro i rest hok
    have hu : itemOk u = true := hok u (List.mem_cons_self _ _)
    cases hm : u.asMap? with
    | none => simp [itemOk, hm] at hu
    | some m =>
      simp only [itemOk, hm, Bool.and_eq_true] at hu
      obtain ⟨w1, hw1⟩ := Option.isSome_iff_exists.mp hu.1
      obtain ⟨w2, hw2⟩ := Option.isSome_iff_exists.mp hu.2
      have hfind : (["title", "url"].find?
          (fun key => (List.lookup key m).isNone)) = none := by
        simp [List.find?, hw1, hw2]
      simp only [List.cons_append, checkItems, hm, hfind, List.append_eq]
      rw [ih (i + 1) rest (fun u hu' => hok u (List.mem_cons_of_mem _ hu'))]
      congr 1
      simp [List.length_cons]
      omega

/-- C2 counterexample: on `[\x7btitle:"A",url:"u1"\x7d, 42]` the first
validation loop hits the non-record element 42 and returns a hard error
naming index 1 (anko.go:180-182) — the element is not silently dropped
and the single record is not returned. -/
theorem validateItems_nonrecord_counterexample :
    validateItems "SearchRule"
        [Value.record [("title", Value.str "A"), ("url", Value.str "u1")],
         Value.int 42] =
      Except.error (RunError.itemNotMap "SearchRule" 1) ∧
    validateItems "SearchRule"
        [Value.record [("title", Value.str "A"), ("url", Value.str "u1")],
         Value.int 42] ≠
      Except.ok [[("title", Value.str "A"), ("url", Value.str "u1")]] :=
  ⟨rfl, fun h => Except.noConfusion h⟩

/-- C2 amended: in search/chapter-list validation a non-record element is
itself a hard error identifying its index (not a silent drop), a record
element missing a required key is a hard error identifying its index and
key, and only when every element is a record holding both keys are all
records returned with no error. -/
theorem validateItems_semantics :
    (∀ (fn : String) (arr : List Value), (∀ v ∈ arr, itemOk v = true) →
      validateItems fn arr = Except.ok (arr.filterMap Value.asMap?)) ∧
    (∀ (fn : String) (pre : List Value) (v : Value) (post : List Value),
      (∀ u ∈ pre, itemOk u = true) → v.asMap? = none →
      validateItems fn (pre ++ v :: post) =
        Except.error (RunError.itemNotMap fn pre.length)) ∧
    (∀ (fn : String) (pre : List Value) (m : List (String × Value))
        (post : List Value) (key : String),
      (∀ u ∈ pre, itemOk u = true) →
      (["title", "url"].find? (fun k => (List.lookup k m).isNone)) = some key →
      validateItems fn (pre ++ Value.record m :: post) =
        Except.error (RunError.itemMissingKey fn pre.length key)) := by
  refine ⟨?_, ?_, ?_⟩
  · intro fn arr hok
    have h := checkItems_ok_prefix fn arr 0 [] hok
    rw [List.append_nil] at h
    simp [validateItems, h, checkItems]
  · intro fn pre v post hok hv
    have h := checkItems_ok_prefix fn pre 0 (v :: post) hok
    simp only [Nat.zero_add] at h
    simp [validateItems, h, checkItems, hv]
  · intro fn pre m post key hok hfind
    have h := checkItems_ok_prefix fn pre 0 (Value.record m :: post) hok
    simp only [Nat.zero_add] at h
    simp [validateItems, h, checkItems, Value.asMap?, hfind]

/-- Witness for the amended C2 theorem: an all-records sequence passes and
a non-record at index 1 is the hard error. -/
theorem validateItems_semantics_witness :
    validateItems "SearchRule"
        [Value.record [("title", Value.str "A"), ("url", Value.str "u1")]] =
      Except.ok
        ([Value.record [("title", Value.str "A"), ("url", Value.str "u1")]].filterMap
          Value.asMap?) ∧
    validateItems "SearchRule"
        ([Value.record [("title", Value.str "A"), ("url", Value.str "u1")]] ++
          Value.int 42 :: []) =
      Except.error (RunError.itemNotMap "SearchRule"
        [Value.record [("title", Value.str "A"), ("url", Value.str "u1")]].length) :=
  ⟨validateItems_semantics.1 "SearchRule" _ (by decide),
   validateItems_semantics.2.1 "SearchRule" _ _ [] (by decide) rfl⟩

/-- An absent required key stops the item-info validation with a
missing-field error for that key. -/
theorem validateInfo_step_absent (key : String) (rest : List String)
    (info : List (String × Value)) (h : List.lookup key info = none) :
    validateInfo (key :: rest) info =
      Except.error (RunError.infoMissingKey key) := by
  simp [validateInfo, h]

/-- A present required key other than `genres` passes the item-info
validation on to the remaining keys. -/
theorem validateInfo_step_present (key : String) (rest : List String)
    (info : List (String × Value)) (v : Value)
    (hv : List.lookup key info = some v) (hk : key ≠ "genres") :
    validateInfo (key :: rest) info = validateInfo rest info := by
  simp [validateInfo, hv, beq_eq_false_iff_ne.mpr hk]

/-- When the first five required keys are present, item-info validation
reduces to the `genres` check. -/
theorem validateInfo_first_five (info : List (String × Value))
    (h : ∀ k ∈ (["title", "cover", "author", "description", "status"] :
        List String), (List.lookup k info).isSome = true) :
    validateInfo infoRequired info = validateInfo ["genres"] info := by
  obtain ⟨v1, h1⟩ := Option.isSome_iff_exists.mp (h "title" (by decide))
  obtain ⟨v2, h2⟩ := Option.isSome_iff_exists.mp (h "cover" (by decide))
  obtain ⟨v3, h3⟩ := Option.isSome_iff_exists.mp (h "author" (by decide))
  obtain ⟨v4, h4⟩ := Option.isSome_iff_exists.mp (h "description" (by decide))
  obtain ⟨v5, h5⟩ := Option.isSome_iff_exists.mp (h "status" (by decide))
  show validateInfo
    ("title" :: ["cover", "author", "description", "status", "genres"]) info = _
  rw [validateInfo_step_present _ _ _ _ h1 (by decide),
      validateInfo_step_present _ _ _ _ h2 (by decide),
      validateInfo_step_present _ _ _ _ h3 (by decide),
      validateInfo_step_present _ _ _ _ h4 (by decide),
      validateInfo_step_present _ _ _ _ h5 (by decide)]

/-- C5: item-info validation fails with a missing-field error when any of
the six required keys is absent; with all six present it fails with the
shape error exactly when `genres` is not a sequence, and otherwise returns
the record unchanged with no error. -/
theorem validateInfo_spec :
    (∀ info : List (String × Value),
      (∃ k ∈ infoRequired, List.lookup k info = none) →
      ∃ k', k' ∈ infoRequired ∧ List.lookup k' info = none ∧
        validateInfo infoRequired info =
          Except.error (RunError.infoMissingKey k')) ∧
    (∀ (info : List (String × Value)) (g : Value),
      (∀ k ∈ infoRequired, (List.lookup k info).isSome = true) →
      List.lookup "genres" info = some g → g.isSeq = false →
      validateInfo infoRequired info =
        Except.error RunError.infoGenresNotArray) ∧
    (∀ (info : List (String × Value)) (g : Value),
      (∀ k ∈ infoRequired, (List.lookup k info).isSome = true) →
      List.lookup "genres" info = some g → g.isSeq = true →
      validateInfo infoRequired info = Except.ok info) := by
  refine ⟨?_, ?_, ?_⟩
  · intro info hex
    show ∃ k', k' ∈ infoRequired ∧ _ ∧
      validateInfo ("title" ::
        ["cover", "author", "description", "status", "genres"]) info = _
    cases h1 : List.lookup "title" info with
    | none => exact ⟨"title", by decide, h1, validateInfo_step_absent _ _ _ h1⟩
    | some v1 =>
      rw [validateInfo_step_present _ _ _ _ h1 (by decide)]
      cases h2 : List.lookup "cover" info with
      | none => exact ⟨"cover", by decide, h2, validateInfo_step_absent _ _ _ h2⟩
      | some v2 =>
        rw [validateInfo_step_present _ _ _ _ h2 (by decide)]
        cases h3 : List.lookup "author" info with
        | none => exact ⟨"author", by decide, h3, validateInfo_step_absent _ _ _ h3⟩
        | some v3 =>
          rw [validateInfo_step_present _ _ _ _ h3 (by decide)]
          cases h4 : List.lookup "description" info with
          | none =>
            exact ⟨"description", by decide, h4, validateInfo_step_absent _ _ _ h4⟩
          | some v4 =>
            rw [validateInfo_step_present _ _ _ _ h4 (by decide)]
            cases h5 : List.lookup "status" info with
            | none =>
              exact ⟨"status", by decide, h5, validateInfo_step_absent _ _ _ h5⟩
            | some v5 =>
              rw [validateInfo_step_present _ _ _ _ h5 (by decide)]
              cases h6 : List.lookup "genres" info with
              | none =>
                exact ⟨"genres", by decide, h6, validateInfo_step_absent _ _ _ h6⟩
              | some v6 =>
                exfalso
                obtain ⟨k, hk, hnone⟩ := hex
                have : (List.lookup k info).isSome = true := by
                  simp only [infoRequired, List.mem_cons,
                    List.mem_singleton] at hk
                  rcases hk with rfl | rfl | rfl | rfl | rfl | hk
                  · simp [h1]
                  · simp [h2]
                  · simp [h3]
                  · simp [h4]
                  · simp [h5]
                  · rcases hk with rfl | hk
                    · simp [h6]
                    · exact absurd hk (List.not_mem_nil _)
                rw [hnone] at this
                exact Bool.noConfusion this
  · intro info g hall hg hseq
    have hsub : ∀ k, k ∈ (["title", "cover", "author", "description", "status"] :
        List String) → k ∈ infoRequired := by
      intro k hk
      simp only [infoRequired, List.mem_cons] at hk ⊢
      tauto
    rw [validateInfo_first_five info (fun k hk => hall k (hsub k hk))]
    simp [validateInfo, hg, hseq]
  · intro info g hall hg hseq
    have hsub : ∀ k, k ∈ (["title", "cover", "author", "description", "status"] :
        List String) → k ∈ infoRequired := by
      intro k hk
      simp only [infoRequired, List.mem_cons] at hk ⊢
      tauto
    rw [validateInfo_first_five info (fun k hk => hall k (hsub k hk))]
    simp [validateInfo, hg, hseq]

/-- Witness for C5: a record missing `genres`, a record whose `genres` is
the string "fantasy", and a fully valid record. -/
theorem validateInfo_spec_witness :
    (∃ k', k' ∈ infoRequired ∧
      List.lookup k' [("title", Value.str "t"), ("cover", Value.str "c"),
        ("author", Value.str "a"), ("description", Value.str "d"),
        ("status", Value.str "s")] = none ∧
      validateInfo infoRequired [("title", Value.str "t"), ("cover", Value.str "c"),
        ("author", Value.str "a"), ("description", Value.str "d"),
        ("status", Value.str "s")] =
        Except.error (RunError.infoMissingKey k')) ∧
    validateInfo infoRequired [("title", Value.str "t"), ("cover", Value.str "c"),
        ("author", Value.str "a"), ("description", Value.str "d"),
        ("status", Value.str "s"), ("genres", Value.str "fantasy")] =
      Except.error RunError.infoGenresNotArray ∧
    validateInfo infoRequired [("title", Value.str "t"), ("cover", Value.str "c"),
        ("author", Value.str "a"), ("description", Value.str "d"),
        ("status", Value.str "s"), ("genres", Value.seq [Value.str "fantasy"])] =
      Except.ok [("title", Value.str "t"), ("cover", Value.str "c"),
        ("author", Value.str "a"), ("description", Value.str "d"),
        ("status", Value.str "s"), ("genres", Value.seq [Value.str "fantasy"])] :=
  ⟨validateInfo_spec.1 _ ⟨"genres", by decide, rfl⟩,
   validateInfo_spec.2.1 _ (Value.str "fantasy") (by decide) rfl rfl,
   validateInfo_spec.2.2 _ (Value.seq [Value.str "fantasy"]) (by decide) rfl rfl⟩
